import Mathlib

/-!
Shallow embedding of the unified command/tool dispatch core of the harness
repository: the text command parser (`harness/core/command_parser.py`), the
tool adapter (`harness/core/tool_adapter.py`) and the unified command bus
(`harness/core/unified_bus.py`), together with proofs of the specification
claims about them.

Modeling conventions:
* Python strings are Lean `String`s; the character-class helpers model the
  ASCII fragment (no claim depends on non-ASCII behavior).
* Python dicts are insertion-ordered association lists with unique keys.
* Python dynamic values are the `PyVal` inductive.  A value produced by
  `float(...)` is represented as `PyVal.vFloat` carrying the accepted source
  text: no modeled operation computes with the numeric value of a float.
* `async` functions and exception raising are modeled with `Except String`:
  a raised exception is `.error msg` with `msg = str(e)`.
* Wall-clock timing (`time.time()`, `time.time_ns()`) is modeled by a
  monotone `clock : Nat` counter in the bus state; `execution_time_ms`
  fields are set to `0` since no claim mentions concrete durations.
-/

/-- Single-quote character (code point 39). -/
def sqChar : Char := Char.ofNat 39

/-- Double-quote character (code point 34). -/
def dqChar : Char := Char.ofNat 34

/-- Backslash character (code point 92). -/
def bsChar : Char := Char.ofNat 92

/-- Single-quote as a one-character string. -/
def sqStr : String := String.singleton sqChar

/-- ASCII whitespace as recognized by Python `str.strip()` and by the regex
class `\s`: space, tab, newline, carriage return, vertical tab, form feed. -/
def isPyWs (c : Char) : Bool :=
  c = ' ' || c = '\t' || c = '\n' || c = '\r' || c = Char.ofNat 11 || c = Char.ofNat 12

/-- The whitespace set `shlex.whitespace` uses for token separation. -/
def isShlexWs (c : Char) : Bool :=
  c = ' ' || c = '\t' || c = '\r' || c = '\n'

/-- Lowercase ASCII letter test, the `[a-z]` part of the command-name regex. -/
def isLowerAZ (c : Char) : Bool := 'a' ≤ c && c ≤ 'z'

/-- Python `str.strip()` on a character list. -/
def pyStripL (cs : List Char) : List Char :=
  ((cs.dropWhile isPyWs).reverse.dropWhile isPyWs).reverse

/-- Python `str.strip()`. -/
def pyStrip (s : String) : String := ⟨pyStripL s.toList⟩

/-- Python `str.strip(chars)` on a character list: remove any of `chars`
from both ends. -/
def pyStripCharsL (chars : List Char) (cs : List Char) : List Char :=
  ((cs.dropWhile (chars.contains ·)).reverse.dropWhile (chars.contains ·)).reverse

/-- Python `str.lower()` (ASCII fragment). -/
def pyLower (s : String) : String := ⟨s.toList.map Char.toLower⟩

/-- Boolean prefix test on character lists (first argument is the prefix). -/
def startsWithL : List Char → List Char → Bool
  | [], _ => true
  | _ :: _, [] => false
  | p :: ps, c :: cs => p = c && startsWithL ps cs

/-- Python `s.startswith(p)`. -/
def strStartsWith (s p : String) : Bool := startsWithL p.toList s.toList

/-- Python `s[n:]` for a nonnegative index. -/
def strDrop (s : String) (n : Nat) : String := ⟨s.toList.drop n⟩

/-- Substring containment, Python `needle in haystack`. -/
def containsSubL (needle : List Char) : List Char → Bool
  | [] => startsWithL needle []
  | c :: cs => startsWithL needle (c :: cs) || containsSubL needle cs

/-- Python `str.split(sep)` for a one-character separator: `n` separators
yield `n + 1` chunks, so the empty string gives one empty chunk. -/
def splitCharL (sep : Char) : List Char → List (List Char)
  | [] => [[]]
  | c :: cs =>
    let r := splitCharL sep cs
    if c = sep then [] :: r
    else
      match r with
      | [] => [[c]]
      | h :: t => (c :: h) :: t

/-- The lines of a text, Python `text.split(chr 10)`. -/
def pyLines (s : String) : List String := (splitCharL '\n' s.toList).map (⟨·⟩)

/-- Worker for `pySplitStrL`; the fuel argument makes the recursion
structural and is always called with at least the input length. -/
def pySplitStrFuel (sep : List Char) : Nat → List Char → List (List Char)
  | _, [] => [[]]
  | 0, cs => [cs]
  | f + 1, c :: cs2 =>
    if startsWithL sep (c :: cs2) && sep.length > 0 then
      [] :: pySplitStrFuel sep f (List.drop (sep.length - 1) cs2)
    else
      match pySplitStrFuel sep f cs2 with
      | [] => [[c]]
      | h :: t => (c :: h) :: t

/-- Python `str.split(sep)` for a multi-character separator, non-overlapping,
left to right.  Only invoked with a nonempty separator. -/
def pySplitStrL (sep cs : List Char) : List (List Char) :=
  pySplitStrFuel sep cs.length cs

/-- Worker for `pyReplaceL`, fuel-structured like `pySplitStrFuel`. -/
def pyReplaceFuel (old new : List Char) : Nat → List Char → List Char
  | _, [] => []
  | 0, cs => cs
  | f + 1, c :: cs2 =>
    if startsWithL old (c :: cs2) && old.length > 0 then
      new ++ pyReplaceFuel old new f (List.drop (old.length - 1) cs2)
    else c :: pyReplaceFuel old new f cs2

/-- Python `str.replace(old, new)`: replace every non-overlapping occurrence,
left to right.  Only invoked with a nonempty pattern. -/
def pyReplace (s old new : String) : String :=
  ⟨pyReplaceFuel old.toList new.toList s.toList.length s.toList⟩

/-- Insertion-ordered association list standing for a Python dict. -/
abbrev Dict (α : Type) := List (String × α)

/-- Python `d[k]` lookup / `d.get(k)`. -/
def dictLookup {α : Type} : Dict α → String → Option α
  | [], _ => none
  | (k2, v) :: t, k => if k2 = k then some v else dictLookup t k

/-- Python `d[k] = v`: overwrite in place if the key exists (keeping its
position), otherwise append. -/
def dictInsert {α : Type} : Dict α → String → α → Dict α
  | [], k, v => [(k, v)]
  | (k2, v2) :: t, k, v =>
    if k2 = k then (k2, v) :: t else (k2, v2) :: dictInsert t k v

/-- Python `k in d`. -/
def dictHasKey {α : Type} (d : Dict α) (k : String) : Bool :=
  (dictLookup d k).isSome

/-- Python `d.pop(k, None)`: the popped value (if any) together with the
dict as it is left afterwards. -/
def dictPop {α : Type} : Dict α → String → Option α × Dict α
  | [], _ => (none, [])
  | (k2, v2) :: t, k =>
    if k2 = k then (some v2, t)
    else
      let r := dictPop t k
      (r.1, (k2, v2) :: r.2)

/-- The dict with one key removed (other entries and their order kept). -/
def dictErase {α : Type} (d : Dict α) (k : String) : Dict α := (dictPop d k).2

/-- The keys of a dict in order. -/
def dictKeys {α : Type} (d : Dict α) : List String := d.map (·.1)

/-- Python dynamic values, covering the value shapes the dispatch core
stores in flags, tool arguments, results and metadata. -/
inductive PyVal : Type where
  | vNone : PyVal
  | vBool : Bool → PyVal
  | vInt : Int → PyVal
  | vFloat : String → PyVal
  | vStr : String → PyVal
  | vList : List PyVal → PyVal

/-- One maximal Python digit part with single underscores allowed between
digits: the accepted digits (underscores removed) and the rest of the input.
The accumulator collects digits already read. -/
def goDigitsU : List Char → List Char → List Char × List Char
  | d :: rest, acc =>
    if d.isDigit then goDigitsU rest (acc ++ [d])
    else if d = '_' then
      match rest with
      | e :: rest2 =>
        if e.isDigit then goDigitsU rest2 (acc ++ [e]) else (acc, d :: rest)
      | [] => (acc, [d])
  else (acc, d :: rest)
  | [], acc => (acc, [])

/-- Scan a digit part; `none` when the input does not start with a digit. -/
def scanDigitsU (cs : List Char) : Option (List Char × List Char) :=
  match cs with
  | c :: _ => if c.isDigit then some (goDigitsU cs []) else none
  | [] => none

/-- Numeric value of a digit list. -/
def natOfDigits (ds : List Char) : Nat :=
  List.foldl (fun a c => 10 * a + (c.toNat - 48)) 0 ds

/-- Python `int(string)`: optional surrounding whitespace, an optional sign,
then one digit part covering the whole rest. -/
def pyIntOfStr (s : String) : Option Int :=
  let cs := pyStripL s.toList
  let signed : Bool × List Char :=
    match cs with
    | '-' :: t => (true, t)
    | '+' :: t => (false, t)
    | t => (false, t)
  match scanDigitsU signed.2 with
  | some (ds, []) =>
    some (if signed.1 then -(natOfDigits ds : Int) else (natOfDigits ds : Int))
  | _ => none

/-- After a mantissa with `digits` accepted digits, accept an optional
exponent and then the end of the input. -/
def floatTail (digits : Nat) (rest : List Char) : Bool :=
  if digits = 0 then false
  else
    match rest with
    | [] => true
    | c :: r =>
      if c = 'e' || c = 'E' then
        let r2 :=
          match r with
          | '+' :: t => t
          | '-' :: t => t
          | t => t
        match scanDigitsU r2 with
        | some (_, []) => true
        | _ => false
      else false

/-- Python `float(string)` acceptance: optional whitespace and sign, then
inf / infinity / nan (case-insensitive) or a decimal mantissa with optional
exponent, single underscores allowed between digits. -/
def isPyFloat (s : String) : Bool :=
  let cs0 := pyStripL s.toList
  let cs :=
    match cs0 with
    | '-' :: t => t
    | '+' :: t => t
    | t => t
  let low := cs.map Char.toLower
  if low = "inf".toList || low = "infinity".toList || low = "nan".toList then true
  else
    match scanDigitsU cs with
    | some (ds, rest) =>
      match rest with
      | '.' :: r =>
        (match scanDigitsU r with
         | some (fs, r2) => floatTail (ds.length + fs.length) r2
         | none => floatTail ds.length r)
      | r => floatTail ds.length r
    | none =>
      match cs with
      | '.' :: r =>
        (match scanDigitsU r with
         | some (fs, r2) => floatTail fs.length r2
         | none => false)
      | _ => false

/-- Lexer modes of the shlex state machine. -/
inductive ShMode : Type where
  | normal | inSingle | inDouble

/-- Worker for `shlexSplit` (POSIX mode, whitespace_split): the token split
loop of `shlex`, carrying the current mode, the token being built, whether a
token has started (a closed quote counts even if empty), and the finished
tokens. -/
def shlexGo : List Char → ShMode → List Char → Bool → List String →
    Except String (List String)
  | [], .normal, tok, started, acc =>
    .ok (if started then acc ++ [⟨tok⟩] else acc)
  | [], .inSingle, _, _, _ => .error "No closing quotation"
  | [], .inDouble, _, _, _ => .error "No closing quotation"
  | c :: cs, .normal, tok, started, acc =>
    if isShlexWs c then
      if started then shlexGo cs .normal [] false (acc ++ [⟨tok⟩])
      else shlexGo cs .normal [] false acc
    else if c = sqChar then shlexGo cs .inSingle tok true acc
    else if c = dqChar then shlexGo cs .inDouble tok true acc
    else if c = bsChar then
      match cs with
      | [] => .error "No escaped character"
      | e :: cs2 => shlexGo cs2 .normal (tok ++ [e]) true acc
    else shlexGo cs .normal (tok ++ [c]) true acc
  | c :: cs, .inSingle, tok, _, acc =>
    if c = sqChar then shlexGo cs .normal tok true acc
    else shlexGo cs .inSingle (tok ++ [c]) true acc
  | c :: cs, .inDouble, tok, _, acc =>
    if c = dqChar then shlexGo cs .normal tok true acc
    else if c = bsChar then
      match cs with
      | [] => .error "No escaped character"
      | e :: cs2 =>
        if e = bsChar || e = dqChar then shlexGo cs2 .inDouble (tok ++ [e]) true acc
        else shlexGo cs2 .inDouble (tok ++ [bsChar, e]) true acc
    else shlexGo cs .inDouble (tok ++ [c]) true acc

/-- `shlex.split(text)` as the parser uses it: single quotes group literally;
inside double quotes a backslash escapes only a backslash or a double quote;
outside quotes a backslash escapes any one character; an unterminated quote
or trailing escape raises ValueError (modeled as `.error` with its text). -/
def shlexSplit (s : String) : Except String (List String) :=
  shlexGo s.toList .normal [] false []

/-- Expected flag-value types appearing in the command catalog. -/
inductive PyType : Type where
  | tInt | tStr | tBool

/-- Python `type.__name__` for the catalog types, used by help rendering. -/
def PyType.typeName : PyType → String
  | .tInt => "int"
  | .tStr => "str"
  | .tBool => "bool"

/-- Shape of one subcommand definition in COMMAND_DEFINITIONS.  `flags` is an
`Option` because the code tests key presence with `"flags" in definition`. -/
structure SubDef : Type where
  args : List String := []
  optional_args : List String := []
  flags : Option (List (String × PyType)) := none
  varargs : Bool := false

/-- Shape of one top-level command definition in COMMAND_DEFINITIONS. -/
structure CommandDef : Type where
  args : List String := []
  optional_args : List String := []
  flags : Option (List (String × PyType)) := none
  varargs : Bool := false
  subcommands : Option (Dict SubDef) := none

/-- The command catalog COMMAND_DEFINITIONS, transcribed entry by entry. -/
def COMMAND_DEFINITIONS : Dict CommandDef :=
  [ ("cmd", { args := ["command"], flags := some [("timeout", .tInt)] }),
    ("read", { args := ["path"], flags := some [("lines", .tInt), ("offset", .tInt)] }),
    ("write", { args := ["path"], flags := some [("content", .tStr), ("append", .tBool)] }),
    ("edit", { args := ["path"],
               flags := some [("old", .tStr), ("new", .tStr), ("all", .tBool)] }),
    ("search", { args := ["pattern"], optional_args := ["path"],
                 flags := some [("type", .tStr), ("limit", .tInt)] }),
    ("tree", { args := [], optional_args := ["path"], flags := some [("depth", .tInt)] }),
    ("sandbox", { subcommands := some (
      [ ("list", { args := [] }),
        ("create", { args := ["name"], flags := some [("type", .tStr)] }),
        ("switch", { args := ["name"] }),
        ("share", { args := ["name", "agents"] }),
        ("delete", { args := ["name"], flags := some [("force", .tBool)] }),
        ("env", { args := ["action"], optional_args := ["key", "value"] }),
        ("state", { args := ["action"], optional_args := ["key", "value"] }) ]) }),
    ("skill", { subcommands := some (
      [ ("list", { flags := some [("category", .tStr)] }),
        ("info", { args := ["name"] }),
        ("invoke", { args := ["name"], varargs := true }),
        ("install", { args := ["name"], flags := some [("version", .tStr)] }),
        ("create", { args := ["name"] }),
        ("remove", { args := ["name"] }) ]) }),
    ("agent", { subcommands := some (
      [ ("list", { flags := some [("status", .tStr)] }),
        ("msg", { args := ["agent", "message"] }),
        ("broadcast", { args := ["message"] }),
        ("query", { args := ["agent", "question"], flags := some [("timeout", .tInt)] }),
        ("subscribe", { args := ["pattern"] }),
        ("unsubscribe", { args := ["pattern"] }) ]) }),
    ("eval", { subcommands := some (
      [ ("start", { flags := some [("type", .tStr)] }),
        ("record", { args := ["task"] }),
        ("assess", {}),
        ("gaps", {}),
        ("improve", {}),
        ("report", { flags := some [("format", .tStr)] }),
        ("status", {}),
        ("history", { flags := some [("limit", .tInt)] }) ]) }),
    ("qa", { subcommands := some (
      [ ("generate", { optional_args := ["topic"], flags := some [("count", .tInt)] }),
        ("pending", { flags := some [("limit", .tInt)] }),
        ("answer", { args := ["id", "answer"] }),
        ("review", { args := ["id"] }),
        ("learn", {}),
        ("export", { flags := some [("format", .tStr)] }) ]) }),
    ("market", { subcommands := some (
      [ ("search", { args := ["query"], flags := some [("type", .tStr), ("limit", .tInt)] }),
        ("info", { args := ["id"] }),
        ("install", { args := ["id"], flags := some [("sandbox", .tStr)] }),
        ("publish", { args := ["path"] }),
        ("rate", { args := ["id", "rating"], optional_args := ["review"] }),
        ("my", {}) ]) }),
    ("help", { optional_args := ["topic"] }),
    ("status", {}),
    ("config", { args := ["action"], optional_args := ["key", "value"] }),
    ("history", { flags := some [("limit", .tInt)] }),
    ("clear", {}),
    ("version", {}) ]

/-- The ParsedCommand dataclass. -/
structure ParsedCommand : Type where
  raw : String
  command : String
  subcommand : Option String := none
  args : List String := []
  flags : Dict PyVal := []
  valid : Bool := true
  error : Option String := none

/-- CommandParser._parse_flag_value: boolean keywords (on the lowercased
value) first, then int, then float, else the raw string. -/
def CommandParser.parse_flag_value (value : String) : PyVal :=
  if pyLower value = "true" || pyLower value = "yes" || pyLower value = "1" then
    .vBool true
  else if pyLower value = "false" || pyLower value = "no" || pyLower value = "0" then
    .vBool false
  else
    match pyIntOfStr value with
    | some n => .vInt n
    | none => if isPyFloat value then .vFloat value else .vStr value

/-- Python `s.split(sep, 1)` for one character: the part before the first
occurrence and the part after, or `none` when absent. -/
def splitOnceChar (sep : Char) : List Char → Option (List Char × List Char)
  | [] => none
  | c :: cs =>
    if c = sep then some ([], cs)
    else
      match splitOnceChar sep cs with
      | some (a, b) => some (c :: a, b)
      | none => none

/-- Worker for `CommandParser.parseRest`: the flag/positional token loop of
CommandParser.parse.  Each step consumes at least one token, so fuel equal
to the token count makes the recursion structural without changing it. -/
def parseRestFuel :
    Nat → List String → List String → Dict PyVal → List String × Dict PyVal
  | _, [], args, flags => (args, flags)
  | 0, rest, args, flags => (args ++ rest, flags)
  | f + 1, token :: more, args, flags =>
    if strStartsWith token "--" then
      let flagName := strDrop token 2
      match splitOnceChar '=' flagName.toList with
      | some (n, v) =>
        parseRestFuel f more args
          (dictInsert flags ⟨n⟩ (CommandParser.parse_flag_value ⟨v⟩))
      | none =>
        match more with
        | next :: more2 =>
          if ¬ strStartsWith next "-" then
            parseRestFuel f more2 args
              (dictInsert flags flagName (CommandParser.parse_flag_value next))
          else
            parseRestFuel f more args (dictInsert flags flagName (.vBool true))
        | [] =>
          parseRestFuel f more args (dictInsert flags flagName (.vBool true))
    else if strStartsWith token "-" && token.length = 2 then
      let flagName := strDrop token 1
      match more with
      | next :: more2 =>
        if ¬ strStartsWith next "-" then
          parseRestFuel f more2 args
            (dictInsert flags flagName (CommandParser.parse_flag_value next))
        else
          parseRestFuel f more args (dictInsert flags flagName (.vBool true))
      | [] =>
        parseRestFuel f more args (dictInsert flags flagName (.vBool true))
    else
      parseRestFuel f more (args ++ [token]) flags

/-- The flag/positional token loop of CommandParser.parse: long flags
(`--flag=value`, `--flag value`, bare boolean `--flag`), two-character short
flags with the same value-consumption rule, everything else positional. -/
def CommandParser.parseRest (rest : List String) (args : List String)
    (flags : Dict PyVal) : List String × Dict PyVal :=
  parseRestFuel rest.length rest args flags

/-- CommandParser.parse: parse one command string into a ParsedCommand.
Failures are reported through `valid := false` plus `error`, never raised. -/
def CommandParser.parse (text0 : String) : ParsedCommand :=
  let text := pyStrip text0
  if ¬ strStartsWith text "/" then
    { raw := text, command := "", valid := false,
      error := some "Command must start with /" }
  else
    let t := strDrop text 1
    match shlexSplit t with
    | .error e =>
      { raw := "/" ++ t, command := "", valid := false,
        error := some ("Parse error: " ++ e) }
    | .ok [] =>
      { raw := "/" ++ t, command := "", valid := false, error := some "Empty command" }
    | .ok (tok :: rest0) =>
      let command := pyLower tok
      match dictLookup COMMAND_DEFINITIONS command with
      | none =>
        { raw := "/" ++ t, command := command, valid := false,
          error := some ("Unknown command: " ++ command) }
      | some dfn =>
        let subRest : Option String × List String :=
          match dfn.subcommands, rest0 with
          | some subs, r0 :: r =>
            let potential := pyLower r0
            if dictHasKey subs potential then (some potential, r) else (none, r0 :: r)
          | _, r => (none, r)
        let argsFlags := CommandParser.parseRest subRest.2 [] []
        { raw := "/" ++ t, command := command, subcommand := subRest.1,
          args := argsFlags.1, flags := argsFlags.2, valid := true }

/-- The single-command regex of the extractor applied to one already
stripped line: group 1 is the `[a-z_]+` command name, group 2 the argument
text after the maximal whitespace run. -/
def matchSingleCommand (s : String) : Option (String × Option String) :=
  match s.toList with
  | [] => none
  | c :: cs =>
    if c = '/' then
      let name := cs.takeWhile (fun ch => isLowerAZ ch || ch = '_')
      if name = [] then none
      else
        match cs.drop name.length with
        | [] => some (⟨name⟩, none)
        | r :: rs =>
          if isPyWs r then some (⟨name⟩, some ⟨(r :: rs).dropWhile isPyWs⟩)
          else none
    else none

/-- The initial argument-fragment list of a freshly matched command line:
`[group2]` when group 2 is present and nonempty, else empty. -/
def argsInitOf (g2 : Option String) : List String :=
  match g2 with
  | some a => if a = "" then [] else [a]
  | none => []

/-- Flush the command being accumulated, if any, into an output tuple. -/
def flushCur (cur : Option (String × List String)) : List (String × String) :=
  match cur with
  | some st => [(st.1, String.intercalate " " st.2)]
  | none => []

/-- The line loop of CommandParser.extract_commands, carrying the command
currently being accumulated (name and argument fragments). -/
def extractGo (cur : Option (String × List String)) :
    List String → List (String × String)
  | [] => flushCur cur
  | line :: more =>
    let stripped := pyStrip line
    if strStartsWith stripped "/" then
      flushCur cur ++
        (match matchSingleCommand stripped with
         | some m => extractGo (some (m.1, argsInitOf m.2)) more
         | none => extractGo none more)
    else
      match cur with
      | some st =>
        if stripped ≠ "" then extractGo (some (st.1, st.2 ++ [stripped])) more
        else extractGo (some st) more
      | none => extractGo none more

/-- CommandParser.extract_commands: all `(command, argsLine)` tuples found in
a text, continuation lines space-joined onto the current command. -/
def CommandParser.extract_commands (text : String) : List (String × String) :=
  extractGo none (pyLines text)

/-- CommandParser.parse_all: extract, reassemble each tuple into a slash
string, and parse it; one ParsedCommand per extracted tuple, in order. -/
def CommandParser.parse_all (text : String) : List ParsedCommand :=
  (CommandParser.extract_commands text).map (fun p =>
    CommandParser.parse ("/" ++ p.1 ++ (if p.2 ≠ "" then " " ++ p.2 else "")))

/-- Insert a string into a lexicographically sorted list. -/
def insertSorted (x : String) : List String → List String
  | [] => [x]
  | y :: ys => if x < y then x :: y :: ys else y :: insertSorted x ys

/-- Python `sorted` on strings (keys here are distinct). -/
def sortedStrs (l : List String) : List String :=
  List.foldr insertSorted [] l

/-- CommandParser.get_help: the general listing for `none`, otherwise the
per-command help with its subcommand or flag block.  Note that the source
strips each assembled line, which also removes the intended indentation. -/
def CommandParser.get_help (command : Option String) : String :=
  match command with
  | none =>
    String.intercalate "\n"
      (["Available commands:\n"] ++
        (sortedStrs (dictKeys COMMAND_DEFINITIONS)).map (fun c => "  /" ++ c) ++
        ["\nUse /help <command> for details."])
  | some cmd =>
    match dictLookup COMMAND_DEFINITIONS cmd with
    | none => "Unknown command: " ++ cmd
    | some dfn =>
      match dfn.subcommands with
      | some subs =>
        String.intercalate "\n"
          (["/" ++ cmd, "\nSubcommands:"] ++
            subs.map (fun p =>
              let argsStr :=
                String.intercalate " " (p.2.args.map (fun a => "<" ++ a ++ ">"))
              let optStr :=
                String.intercalate " "
                  (p.2.optional_args.map (fun a => "[" ++ a ++ "]"))
              pyStrip ("  " ++ p.1 ++ " " ++ argsStr ++ " " ++ optStr)))
      | none =>
        let argsStr := String.intercalate " " (dfn.args.map (fun a => "<" ++ a ++ ">"))
        let optStr :=
          String.intercalate " " (dfn.optional_args.map (fun a => "[" ++ a ++ "]"))
        let firstLine :=
          if argsStr ≠ "" || optStr ≠ "" then
            "/" ++ cmd ++ pyStrip (" " ++ argsStr ++ " " ++ optStr)
          else "/" ++ cmd
        let flagLines :=
          match dfn.flags with
          | some fl =>
            ["\nFlags:"] ++
              fl.map (fun p => "  --" ++ p.1 ++ " <" ++ p.2.typeName ++ ">")
          | none => []
        String.intercalate "\n" ([firstLine] ++ flagLines)

/-- The MultiLineCommandBuilder state. -/
structure MultiLineCommandBuilder : Type where
  buffer : List String := []
  in_command : Bool := false
  current_command : String := ""
  delimiter : String := "EOF"

/-- A fresh builder, as constructed by `__init__`. -/
def MultiLineCommandBuilder.mkNew : MultiLineCommandBuilder := {}

/-- MultiLineCommandBuilder.add_line: outside a heredoc, a slash line
containing `<<` opens one (the delimiter is the text after the first `<<`,
stripped of whitespace and then of surrounding quote characters) and any
other slash line is returned stripped; inside, a line whose strip equals the
delimiter closes the heredoc and synthesizes the command with a quoted
`--content` flag, other lines are buffered. -/
def MultiLineCommandBuilder.add_line (b : MultiLineCommandBuilder) (line : String) :
    Option String × MultiLineCommandBuilder :=
  if ¬ b.in_command then
    if strStartsWith (pyStrip line) "/" then
      if containsSubL ['<', '<'] line.toList then
        let parts := pySplitStrL ['<', '<'] line.toList
        let cmd : String := ⟨parts.headD []⟩
        let delim : String :=
          ⟨pyStripCharsL [sqChar, dqChar] (pyStripL (parts.getD 1 []))⟩
        (none, { b with current_command := cmd, delimiter := delim,
                        in_command := true, buffer := [] })
      else (some (pyStrip line), b)
    else (none, b)
  else
    if pyStrip line = b.delimiter then
      let content := String.intercalate "\n" b.buffer
      (some (b.current_command ++ " --content " ++ sqStr ++ content ++ sqStr),
       { b with in_command := false, buffer := [] })
    else (none, { b with buffer := b.buffer ++ [line] })

/-- A tool handler: called with the argument dict as keyword arguments. -/
abbrev ToolHandler := Dict PyVal → Except String PyVal

/-- ToolSchema.  The static wire metadata (description, JSON parameter
specs, required list) is not transcribed: no operation the claims exercise
reads it — `execute` consults only catalog membership and the bound
handler. -/
structure ToolSchema : Type where
  name : String
  handler : Option ToolHandler := none

/-- The HARNESS_TOOLS catalog keyed by tool name, handlers unbound. -/
def HARNESS_TOOLS : Dict ToolSchema :=
  [ ("harness_shell", { name := "harness_shell" }),
    ("harness_read", { name := "harness_read" }),
    ("harness_write", { name := "harness_write" }),
    ("harness_edit", { name := "harness_edit" }),
    ("harness_search", { name := "harness_search" }),
    ("harness_sandbox", { name := "harness_sandbox" }),
    ("harness_skill", { name := "harness_skill" }),
    ("harness_agent", { name := "harness_agent" }),
    ("harness_eval", { name := "harness_eval" }),
    ("harness_qa", { name := "harness_qa" }),
    ("harness_market", { name := "harness_market" }),
    ("harness_status", { name := "harness_status" }),
    ("harness_config", { name := "harness_config" }) ]

/-- ToolResult dataclass. -/
structure ToolResult : Type where
  tool_name : String
  success : Bool
  result : PyVal := .vNone
  error : Option String := none
  execution_time_ms : Nat := 0

/-- ToolAdapter state: the schema catalog and instance-level handlers. -/
structure ToolAdapter : Type where
  tools : Dict ToolSchema := HARNESS_TOOLS
  handlers : Dict ToolHandler := []

/-- The in-place mutation `self.tools[tool_name].handler = handler` applied
to one catalog entry. -/
def schemaSetHandler (tool_name : String) (handler : ToolHandler)
    (p : String × ToolSchema) : String × ToolSchema :=
  if p.1 = tool_name then (p.1, { p.2 with handler := some handler }) else p

/-- ToolAdapter.register_handler: bind the handler into the schema when the
tool is in the catalog, and always record it instance-level. -/
def ToolAdapter.register_handler (a : ToolAdapter) (tool_name : String)
    (handler : ToolHandler) : ToolAdapter :=
  let tools :=
    if dictHasKey a.tools tool_name then
      a.tools.map (schemaSetHandler tool_name handler)
    else a.tools
  { a with tools := tools, handlers := dictInsert a.handlers tool_name handler }

/-- ToolAdapter.execute: unknown tool and missing handler become failure
results; a raising handler is caught into a failure result carrying the
error text; the operation is total. -/
def ToolAdapter.execute (a : ToolAdapter) (tool_name : String)
    (arguments : Dict PyVal) : ToolResult :=
  match dictLookup a.tools tool_name with
  | none =>
    { tool_name := tool_name, success := false,
      error := some ("Unknown tool: " ++ tool_name) }
  | some sch =>
    match (dictLookup a.handlers tool_name).orElse (fun _ => sch.handler) with
    | none =>
      { tool_name := tool_name, success := false,
        error := some ("No handler for tool: " ++ tool_name) }
    | some h =>
      match h arguments with
      | .ok v => { tool_name := tool_name, success := true, result := v }
      | .error e => { tool_name := tool_name, success := false, error := some e }

/-- The tool-name → command-name table of tool_to_command. -/
def TOOL_CMD_MAP : Dict String :=
  [ ("harness_shell", "cmd"),
    ("harness_read", "read"),
    ("harness_write", "write"),
    ("harness_edit", "edit"),
    ("harness_search", "search"),
    ("harness_sandbox", "sandbox"),
    ("harness_skill", "skill"),
    ("harness_agent", "agent"),
    ("harness_eval", "eval"),
    ("harness_qa", "qa"),
    ("harness_market", "market"),
    ("harness_status", "status"),
    ("harness_config", "config") ]

/-- Python `repr` of a scalar value; a list nested inside a list is
abbreviated (the schemas declare only arrays of scalars, and no claim reads
any text built from this). -/
def pyReprScalar : PyVal → String
  | .vNone => "None"
  | .vBool true => "True"
  | .vBool false => "False"
  | .vInt n => toString n
  | .vFloat s => s
  | .vStr s => sqStr ++ s ++ sqStr
  | .vList _ => "[...]"

/-- Python `repr` of a value, used only to build the echoed `raw` string of
tool-converted commands (string escaping and float normalization are not
modeled; no claim reads `raw` of such commands). -/
def pyReprVal : PyVal → String
  | .vList xs => "[" ++ String.intercalate ", " (xs.map pyReprScalar) ++ "]"
  | v => pyReprScalar v

/-- Python `repr` of a dict. -/
def pyDictRepr (d : Dict PyVal) : String :=
  "\x7b" ++
    String.intercalate ", "
      (d.map (fun p => sqStr ++ p.1 ++ sqStr ++ ": " ++ pyReprVal p.2)) ++ "\x7d"

/-- The value popped for `action`, as the subcommand field.  Every schema
declares `action` as a string; a non-string value (which Python would store
as-is in the untyped field) is represented by its repr text. -/
def actionToSub : Option PyVal → Option String
  | some (.vStr s) => some s
  | some v => some (pyReprVal v)
  | none => none

/-- ToolAdapter.tool_to_command.  The Python method pops `action` out of the
caller's mapping, so the model returns the ParsedCommand together with the
mapping as the pop leaves it. -/
def ToolAdapter.tool_to_command (tool_name : String) (arguments : Dict PyVal) :
    ParsedCommand × Dict PyVal :=
  let cmd := (dictLookup TOOL_CMD_MAP tool_name).getD
      (pyReplace tool_name "harness_" "")
  let popped := dictPop arguments "action"
  let subcommand := actionToSub popped.1
  let rest := popped.2
  let flags := List.foldl (fun fl (p : String × PyVal) =>
      match p.2 with
      | .vBool true => dictInsert fl p.1 (.vBool true)
      | .vBool false => fl
      | .vNone => fl
      | v => dictInsert fl p.1 v) [] rest
  ({ raw := "/" ++ cmd ++ " " ++ subcommand.getD "" ++ " " ++ pyDictRepr rest,
     command := cmd, subcommand := subcommand, args := [], flags := flags,
     valid := true }, rest)

/-- CommandHandler: a named handler with optional subhandlers, checked
before the generic `handle`.  Sync and async callables are unified as
`Except`-valued functions; raising is `.error msg`. -/
structure CommandHandler : Type where
  name : String
  subhandlers : Dict (ParsedCommand → Dict PyVal → Except String PyVal) := []
  handle : ParsedCommand → Dict PyVal → Except String PyVal

/-- CommandHandler.execute: dispatch to a subhandler when the parsed
subcommand is truthy and registered, else to `handle`. -/
def CommandHandler.execute (h : CommandHandler) (parsed : ParsedCommand)
    (context : Dict PyVal) : Except String PyVal :=
  match parsed.subcommand with
  | some sub =>
    if sub ≠ "" then
      match dictLookup h.subhandlers sub with
      | some f => f parsed context
      | none => h.handle parsed context
    else h.handle parsed context
  | none => h.handle parsed context

/-- RequestType enum. -/
inductive RequestType : Type where
  | TEXT_COMMAND | TOOL_CALL

/-- ExecutionRequest dataclass; `timestamp` is the model clock value. -/
structure ExecutionRequest : Type where
  request_id : String
  request_type : RequestType
  agent_id : String
  raw_text : Option String := none
  parsed_command : Option ParsedCommand := none
  tool_name : Option String := none
  tool_args : Option (Dict PyVal) := none
  timestamp : Nat := 0
  metadata : Dict PyVal := []

/-- ExecutionResponse dataclass. -/
structure ExecutionResponse : Type where
  request_id : String
  success : Bool
  result : PyVal := .vNone
  error : Option String := none
  execution_time_ms : Nat := 0
  metadata : Dict PyVal := []

/-- A middleware: `(request, next) → response`, free to raise. -/
abbrev Middleware :=
  ExecutionRequest → (ExecutionRequest → Except String ExecutionResponse) →
    Except String ExecutionResponse

/-- UnifiedCommandBus state.  The parser is stateless and global here; the
clock models the `time.time_ns()` source of request ids. -/
structure UnifiedCommandBus : Type where
  tool_adapter : ToolAdapter := {}
  handlers : Dict CommandHandler := []
  middlewares : List Middleware := []
  history : List ExecutionRequest := []
  max_history : Nat := 1000
  clock : Nat := 0

/-- A freshly constructed bus. -/
def UnifiedCommandBus.mkNew : UnifiedCommandBus := {}

/-- Marks the `dict(...)` shallow copies the bus takes before handing tool
arguments to `tool_to_command`; in the pure model the copy is the identity,
the original mapping being unaffected by construction. -/
def dictCopy (d : Dict PyVal) : Dict PyVal := d

/-- UnifiedCommandBus._make_tool_handler: an adapter-side handler that
converts the keyword arguments to a ParsedCommand and delegates to the
command handler with a tool-source context. -/
def UnifiedCommandBus.make_tool_handler (h : CommandHandler) : ToolHandler :=
  fun kwargs =>
    let parsed := (ToolAdapter.tool_to_command ("harness_" ++ h.name) (dictCopy kwargs)).1
    let parsed := { parsed with command := h.name }
    h.execute parsed [("source", .vStr "tool")]

/-- UnifiedCommandBus.register_handler: store the command handler and also
register the synthesized `harness_`-prefixed tool handler. -/
def UnifiedCommandBus.register_handler (s : UnifiedCommandBus) (command : String)
    (handler : CommandHandler) : UnifiedCommandBus :=
  { s with
    handlers := dictInsert s.handlers command handler,
    tool_adapter := s.tool_adapter.register_handler ("harness_" ++ command)
      (UnifiedCommandBus.make_tool_handler handler) }

/-- UnifiedCommandBus.add_middleware. -/
def UnifiedCommandBus.add_middleware (s : UnifiedCommandBus) (mw : Middleware) :
    UnifiedCommandBus :=
  { s with middlewares := s.middlewares ++ [mw] }

/-- The metadata value echoing an optional raw text. -/
def optRawVal : Option String → PyVal
  | some r => .vStr r
  | none => .vNone

/-- UnifiedCommandBus._execute_text_command: parse failure, built-in help,
unknown command, and handler success/failure, the handler error being caught
at the point of invocation. -/
def UnifiedCommandBus.execute_text_command (s : UnifiedCommandBus)
    (req : ExecutionRequest) (context : Dict PyVal) : ExecutionResponse :=
  match req.parsed_command with
  | none =>
    { request_id := req.request_id, success := false,
      error := some "Failed to parse command",
      metadata := [("command", optRawVal req.raw_text)] }
  | some parsed =>
    if ¬ parsed.valid then
      { request_id := req.request_id, success := false, error := parsed.error,
        metadata := [("command", .vStr parsed.raw)] }
    else
      match dictLookup s.handlers parsed.command with
      | none =>
        if parsed.command = "help" then
          { request_id := req.request_id, success := true,
            result := .vStr (CommandParser.get_help parsed.args.head?),
            metadata := [("command", .vStr parsed.raw)] }
        else
          { request_id := req.request_id, success := false,
            error := some ("Unknown command: " ++ parsed.command),
            metadata := [("command", .vStr parsed.raw)] }
      | some handler =>
        match handler.execute parsed context with
        | .ok v =>
          { request_id := req.request_id, success := true, result := v,
            metadata := [("command", .vStr parsed.raw),
                         ("handler", .vStr handler.name)] }
        | .error e =>
          { request_id := req.request_id, success := false, error := some e,
            metadata := [("command", .vStr parsed.raw),
                         ("handler", .vStr handler.name)] }

/-- UnifiedCommandBus._execute_tool_call: a de-prefixed name matching a
registered command handler is routed through it (errors caught); otherwise
the adapter executes the tool and its result is folded into the response. -/
def UnifiedCommandBus.execute_tool_call (s : UnifiedCommandBus)
    (req : ExecutionRequest) (context : Dict PyVal) :
    Except String ExecutionResponse :=
  match req.tool_name with
  | none => .error "AttributeError: NoneType has no attribute replace"
  | some tool_name =>
    let tool_args := (req.tool_args.getD [])
    let cmd_name := pyReplace tool_name "harness_" ""
    match dictLookup s.handlers cmd_name with
    | some handler =>
      let parsed := (ToolAdapter.tool_to_command tool_name (dictCopy tool_args)).1
      let parsed := { parsed with command := cmd_name }
      (match handler.execute parsed context with
       | .ok v =>
         .ok { request_id := req.request_id, success := true, result := v,
               metadata := [("tool_name", .vStr tool_name),
                            ("handler", .vStr handler.name)] }
       | .error e =>
         .ok { request_id := req.request_id, success := false, error := some e,
               metadata := [("tool_name", .vStr tool_name),
                            ("handler", .vStr handler.name)] })
    | none =>
      let tr := s.tool_adapter.execute tool_name tool_args
      .ok { request_id := req.request_id, success := tr.success, result := tr.result,
            error := tr.error, metadata := [("tool_name", .vStr tool_name)] }

/-- UnifiedCommandBus._execute_core: route on the request type. -/
def UnifiedCommandBus.execute_core (s : UnifiedCommandBus) (req : ExecutionRequest)
    (context : Dict PyVal) : Except String ExecutionResponse :=
  match req.request_type with
  | .TEXT_COMMAND => .ok (s.execute_text_command req context)
  | .TOOL_CALL => s.execute_tool_call req context

/-- Python `l[-n:]`, including the `-0` quirk that returns the whole list. -/
def pyLastN {α : Type} (l : List α) (n : Nat) : List α :=
  if n = 0 then l else l.drop (l.length - n)

/-- The history cap of `_execute`: keep only the `max_history` most recent
entries once the log exceeds the cap. -/
def capHistory (maxH : Nat) (h : List ExecutionRequest) : List ExecutionRequest :=
  if h.length > maxH then pyLastN h maxH else h

/-- The middleware chain around the core dispatcher: middlewares wrap the
final handler right-to-left, so the first added runs outermost. -/
def UnifiedCommandBus.runChain (s : UnifiedCommandBus) (req : ExecutionRequest)
    (context : Dict PyVal) : Except String ExecutionResponse :=
  (List.foldr (fun (mw : Middleware) next => fun r => mw r next)
    (fun r => s.execute_core r context) s.middlewares) req

/-- UnifiedCommandBus._execute: append the request to bounded history before
dispatch, run the middleware chain, and catch any uncaught error into a
failure response carrying its text. -/
def UnifiedCommandBus.execRequest (s : UnifiedCommandBus) (req : ExecutionRequest)
    (context : Dict PyVal) : ExecutionResponse × UnifiedCommandBus :=
  let s := { s with history := capHistory s.max_history (s.history ++ [req]) }
  let response :=
    match s.runChain req context with
    | .ok r => r
    | .error e =>
      { request_id := req.request_id, success := false, error := some e }
  ({ response with execution_time_ms := 0 }, s)

/-- The ExecutionRequest a text command turn builds for one parsed command. -/
def mkTextRequest (clock : Nat) (agent_id : String) (p : ParsedCommand) :
    ExecutionRequest :=
  { request_id := "req-" ++ toString clock, request_type := .TEXT_COMMAND,
    agent_id := agent_id, raw_text := some p.raw, parsed_command := some p,
    timestamp := clock }

/-- The ExecutionRequest a tool call builds. -/
def mkToolRequest (clock : Nat) (agent_id tool_name : String)
    (tool_args : Dict PyVal) : ExecutionRequest :=
  { request_id := "req-" ++ toString clock, request_type := .TOOL_CALL,
    agent_id := agent_id, tool_name := some tool_name,
    tool_args := some tool_args, timestamp := clock }

/-- The sequential dispatch loop of execute_text. -/
def UnifiedCommandBus.executeTextGo (agent_id : String) (context : Dict PyVal) :
    UnifiedCommandBus → List ParsedCommand →
      List ExecutionResponse × UnifiedCommandBus
  | s, [] => ([], s)
  | s, p :: ps =>
    let req := mkTextRequest s.clock agent_id p
    let step := UnifiedCommandBus.execRequest { s with clock := s.clock + 1 } req context
    let rest := UnifiedCommandBus.executeTextGo agent_id context step.2 ps
    (step.1 :: rest.1, rest.2)

/-- UnifiedCommandBus.execute_text: parse all commands, then dispatch each
sequentially, returning responses in order.  A `None` context is modeled by
passing the empty dict. -/
def UnifiedCommandBus.execute_text (s : UnifiedCommandBus) (text agent_id : String)
    (context : Dict PyVal) : List ExecutionResponse × UnifiedCommandBus :=
  let context := dictInsert (dictInsert context "agent_id" (.vStr agent_id))
    "source" (.vStr "text")
  UnifiedCommandBus.executeTextGo agent_id context s (CommandParser.parse_all text)

/-- UnifiedCommandBus.execute_tool: build one tool-call request and dispatch
it through the same pipeline. -/
def UnifiedCommandBus.execute_tool (s : UnifiedCommandBus) (tool_name : String)
    (tool_args : Dict PyVal) (agent_id : String) (context : Dict PyVal) :
    ExecutionResponse × UnifiedCommandBus :=
  let context := dictInsert (dictInsert context "agent_id" (.vStr agent_id))
    "source" (.vStr "tool")
  let req := mkToolRequest s.clock agent_id tool_name tool_args
  UnifiedCommandBus.execRequest { s with clock := s.clock + 1 } req context

/-- UnifiedCommandBus.get_history: filter by agent when the id is truthy,
then return the last `limit` entries (Python slice semantics). -/
def UnifiedCommandBus.get_history (s : UnifiedCommandBus) (agent_id : Option String)
    (limit : Nat) : List ExecutionRequest :=
  let h :=
    match agent_id with
    | some a => if a ≠ "" then s.history.filter (fun r => r.agent_id = a) else s.history
    | none => s.history
  pyLastN h limit

/-- get_history with both arguments left at their defaults
(`agent_id=None`, `limit=50`). -/
def UnifiedCommandBus.get_history_default (s : UnifiedCommandBus) :
    List ExecutionRequest :=
  s.get_history none 50

/-- One bus dispatch used to count requests for the history-cap claim: a
single tool call (every dispatch path appends exactly one request). -/
def dispatchStep (s : UnifiedCommandBus) : UnifiedCommandBus :=
  (s.execute_tool "harness_status" [] "agent-1" []).2

/-- `n` requests dispatched through a fresh bus. -/
def dispatchN : Nat → UnifiedCommandBus
  | 0 => UnifiedCommandBus.mkNew
  | n + 1 => dispatchStep (dispatchN n)

/-- The tuple the extractor produces for one line matching the
single-command pattern (used to state the order-preservation claim). -/
def extractTupleOf (l : String) : String × String :=
  match matchSingleCommand (pyStrip l) with
  | some m => (m.1, String.intercalate " " (argsInitOf m.2))
  | none => ("", "")

/-- The slash string parse_all rebuilds for a line matched by the
extractor before re-parsing it. -/
def reassembleLine (l : String) : String :=
  let p := extractTupleOf l
  "/" ++ p.1 ++ (if p.2 ≠ "" then " " ++ p.2 else "")

/-- A command handler whose execution always raises `boom` (witness
fixture: a collaborator violating nothing, merely failing). -/
def crashHandler : CommandHandler :=
  { name := "read", handle := fun _ _ => .error "boom" }

/-- A tool handler that always raises `kaput` (witness fixture). -/
def crashTool : ToolHandler := fun _ => .error "kaput"

/-- A tool handler that always succeeds (witness fixture). -/
def okTool : ToolHandler := fun _ => .ok (.vStr "done")

/-- A middleware that raises before reaching the core (witness fixture for
the top-level error recovery path). -/
def crashMw : Middleware := fun _ _ => .error "mw-crash"

/-- The response of a help dispatch on a fresh bus (witness fixture). -/
def helpResp : ExecutionResponse :=
  (UnifiedCommandBus.mkNew.execute_text "/help" "a1" []).1.headD
    { request_id := "", success := true }

/-! ## Theorems -/

/-- Claim C6 (counterexample): the input of concrete scenario A parses with
`path.txt` as a positional argument, not with an empty argument list as the
claim states. -/
theorem claim_C6_counterexample :
    (CommandParser.parse "/read path.txt --lines 10").args = ["path.txt"] ∧
    ["path.txt"] ≠ ([] : List String) := by
  exact ⟨rfl, by decide⟩

/-- Claim C6 (amended): the input parses to command `read`,
args `[path.txt]`, flags `(lines : 10)`, valid, with no error and the
original text echoed in `raw`. -/
theorem claim_C6_amended :
    CommandParser.parse "/read path.txt --lines 10" =
      { raw := "/read path.txt --lines 10", command := "read", subcommand := none,
        args := ["path.txt"], flags := [("lines", .vInt 10)], valid := true,
        error := none } := rfl

/-- Claim C4 (counterexample): the string `True` is in none of the claim's
literal keyword sets, is not parseable as an integer or float, yet coercion
does not return it unchanged — it yields boolean true, because the code
lowercases the value before the keyword test. -/
theorem claim_C4_counterexample :
    ¬ (("True" : String) = "true" ∨ ("True" : String) = "yes" ∨ ("True" : String) = "1") ∧
    pyIntOfStr "True" = none ∧
    isPyFloat "True" = false ∧
    CommandParser.parse_flag_value "True" ≠ .vStr "True" ∧
    CommandParser.parse_flag_value "True" = .vBool true := by
  refine ⟨by decide, rfl, rfl, fun h => PyVal.noConfusion h, rfl⟩

/-- Claim C4 (amended): coercion tests the boolean keyword sets on the
lowercased value; with that adjustment the ordered chain is as claimed —
boolean keywords, then integer, then float, then the raw string. -/
theorem claim_C4_amended (v : String) :
    ((pyLower v = "true" ∨ pyLower v = "yes" ∨ pyLower v = "1") →
      CommandParser.parse_flag_value v = .vBool true)
    ∧ (¬ (pyLower v = "true" ∨ pyLower v = "yes" ∨ pyLower v = "1") →
        (pyLower v = "false" ∨ pyLower v = "no" ∨ pyLower v = "0") →
        CommandParser.parse_flag_value v = .vBool false)
    ∧ (∀ n : Int,
        ¬ (pyLower v = "true" ∨ pyLower v = "yes" ∨ pyLower v = "1") →
        ¬ (pyLower v = "false" ∨ pyLower v = "no" ∨ pyLower v = "0") →
        pyIntOfStr v = some n →
        CommandParser.parse_flag_value v = .vInt n)
    ∧ (¬ (pyLower v = "true" ∨ pyLower v = "yes" ∨ pyLower v = "1") →
        ¬ (pyLower v = "false" ∨ pyLower v = "no" ∨ pyLower v = "0") →
        pyIntOfStr v = none → isPyFloat v = true →
        CommandParser.parse_flag_value v = .vFloat v)
    ∧ (¬ (pyLower v = "true" ∨ pyLower v = "yes" ∨ pyLower v = "1") →
        ¬ (pyLower v = "false" ∨ pyLower v = "no" ∨ pyLower v = "0") →
        pyIntOfStr v = none → isPyFloat v = false →
        CommandParser.parse_flag_value v = .vStr v) := by
  refine ⟨?_, ?_, ?_, ?_, ?_⟩
  · intro h
    unfold CommandParser.parse_flag_value
    rcases h with h | h | h <;> simp [h]
  · intro hT hF
    push_neg at hT
    unfold CommandParser.parse_flag_value
    rcases hF with h | h | h <;> simp [h, hT.1, hT.2.1, hT.2.2]
  · intro n hT hF hi
    push_neg at hT
    push_neg at hF
    unfold CommandParser.parse_flag_value
    simp [hT.1, hT.2.1, hT.2.2, hF.1, hF.2.1, hF.2.2, hi]
  · intro hT hF hi hf
    push_neg at hT
    push_neg at hF
    unfold CommandParser.parse_flag_value
    simp [hT.1, hT.2.1, hT.2.2, hF.1, hF.2.1, hF.2.2, hi, hf]
  · intro hT hF hi hf
    push_neg at hT
    push_neg at hF
    unfold CommandParser.parse_flag_value
    simp [hT.1, hT.2.1, hT.2.2, hF.1, hF.2.1, hF.2.2, hi, hf]

/-- Claim C4 (witness): the amended theorem evaluated on one value of each
kind — an uppercase boolean keyword, a false keyword, an integer, a float
and a fallback string. -/
theorem claim_C4_amended_witness :
    CommandParser.parse_flag_value "TRUE" = .vBool true ∧
    CommandParser.parse_flag_value "No" = .vBool false ∧
    CommandParser.parse_flag_value "42" = .vInt 42 ∧
    CommandParser.parse_flag_value "3.5" = .vFloat "3.5" ∧
    CommandParser.parse_flag_value "abc" = .vStr "abc" := by
  refine ⟨?_, ?_, ?_, ?_, ?_⟩
  · exact (claim_C4_amended "TRUE").1 (by decide)
  · exact (claim_C4_amended "No").2.1 (by decide) (by decide)
  · exact (claim_C4_amended "42").2.2.1 42 (by decide) (by decide) rfl
  · exact (claim_C4_amended "3.5").2.2.2.1 (by decide) (by decide) rfl rfl
  · exact (claim_C4_amended "abc").2.2.2.2 (by decide) (by decide) rfl rfl

/-- Claim C9 (counterexample): after a command line with `<<` and nothing
after it, the delimiter is the empty string, not `EOF`; a subsequent `EOF`
line does not terminate the heredoc (it is buffered), while per the claim it
should have. -/
theorem claim_C9_counterexample :
    ((MultiLineCommandBuilder.mkNew.add_line "/write f <<").2.delimiter = "") ∧
    ((MultiLineCommandBuilder.mkNew.add_line "/write f <<").2.delimiter ≠ "EOF") ∧
    (((MultiLineCommandBuilder.mkNew.add_line "/write f <<").2.add_line "EOF").1 = none) ∧
    (((MultiLineCommandBuilder.mkNew.add_line "/write f <<").2.add_line "EOF").2.buffer
      = ["EOF"]) := by
  refine ⟨rfl, by decide, rfl, rfl⟩

/-- Claim C9 (amended): with no delimiter text after the `<<` marker the
delimiter becomes the empty string (the `EOF` initializer is overwritten),
so the heredoc terminates at the first whitespace-only line; termination on
a line whose strip equals the delimiter always synthesizes the original
command prefix followed by a quoted `--content` flag carrying the buffered
lines joined by newline. -/
theorem claim_C9_amended :
    (∀ (b : MultiLineCommandBuilder) (line : String),
      b.in_command = false →
      strStartsWith (pyStrip line) "/" = true →
      containsSubL ['<', '<'] line.toList = true →
      (⟨pyStripCharsL [sqChar, dqChar]
          (pyStripL ((pySplitStrL ['<', '<'] line.toList).getD 1 []))⟩ : String) = "" →
      (b.add_line line).2.delimiter = "" ∧
      (b.add_line line).2.in_command = true ∧
      (b.add_line line).2.buffer = [] ∧
      (b.add_line line).2.current_command
        = ⟨(pySplitStrL ['<', '<'] line.toList).headD []⟩)
  ∧ (∀ (b : MultiLineCommandBuilder) (line : String),
      b.in_command = true →
      pyStrip line = b.delimiter →
      b.add_line line =
        (some (b.current_command ++ " --content " ++ sqStr ++
               String.intercalate "\n" b.buffer ++ sqStr),
         { b with in_command := false, buffer := [] })) := by
  constructor
  · intro b line h1 h2 h3 h4
    simp only [String.toList, List.getD, List.get?_eq_getElem?] at h3 h4
    unfold MultiLineCommandBuilder.add_line
    simp [h1, h2, h3, h4, List.getD]
  · intro b line h1 h2
    unfold MultiLineCommandBuilder.add_line
    simp [h1, h2]

/-- Claim C9 (witness): the amended theorem exercised end to end — opening a
heredoc with a bare `<<` yields the empty delimiter, and a blank line then
terminates it, synthesizing the `--content` command from the buffered line. -/
theorem claim_C9_witness :
    ((MultiLineCommandBuilder.mkNew.add_line "/write f <<").2.delimiter = "" ∧
     (MultiLineCommandBuilder.mkNew.add_line "/write f <<").2.in_command = true ∧
     (MultiLineCommandBuilder.mkNew.add_line "/write f <<").2.buffer = [] ∧
     (MultiLineCommandBuilder.mkNew.add_line "/write f <<").2.current_command = "/write f ")
  ∧ ((((MultiLineCommandBuilder.mkNew.add_line "/write f <<").2.add_line "hi").2.add_line "")
      = (some ("/write f " ++ " --content " ++ sqStr ++ "hi" ++ sqStr),
         { ((MultiLineCommandBuilder.mkNew.add_line "/write f <<").2.add_line "hi").2
            with in_command := false, buffer := [] })) := by
  constructor
  · exact claim_C9_amended.1 MultiLineCommandBuilder.mkNew "/write f <<" rfl rfl rfl rfl
  · have h := claim_C9_amended.2
      (((MultiLineCommandBuilder.mkNew.add_line "/write f <<").2.add_line "hi").2) "" rfl rfl
    simpa using h

/-- Helper: the value `dict.pop(k, None)` returns is the plain lookup. -/
theorem dictPop_fst {α : Type} (d : Dict α) (k : String) :
    (dictPop d k).1 = dictLookup d k := by
  induction d with
  | nil => rfl
  | cons p t ih =>
    obtain ⟨k2, v2⟩ := p
    by_cases h : k2 = k <;> simp [dictPop, dictLookup, h, ih]

/-- Helper: a key outside a dict looks up to nothing. -/
theorem dictLookup_eq_none {α : Type} (d : Dict α) (k : String)
    (h : k ∉ dictKeys d) : dictLookup d k = none := by
  induction d with
  | nil => rfl
  | cons p t ih =>
    obtain ⟨k2, v2⟩ := p
    simp only [dictKeys, List.map_cons, List.mem_cons] at h
    push_neg at h
    simp only [dictLookup, if_neg (Ne.symm h.1)]
    exact ih h.2

/-- Helper: removing one key leaves every other key bound as before. -/
theorem dictLookup_dictErase_ne {α : Type} (d : Dict α) (k k2 : String)
    (h : k2 ≠ k) : dictLookup (dictErase d k) k2 = dictLookup d k2 := by
  induction d with
  | nil => rfl
  | cons p t ih =>
    obtain ⟨k3, v3⟩ := p
    by_cases h3 : k3 = k
    · subst h3
      simp [dictErase, dictPop, dictLookup, if_neg (Ne.symm h)]
    · simp only [dictErase, dictPop, if_neg h3, dictLookup] at ih ⊢
      by_cases h4 : k3 = k2 <;> simp [h4, ih]

/-- Helper: with unique keys, the removed key is unbound afterwards. -/
theorem dictLookup_dictErase_self {α : Type} (d : Dict α) (k : String)
    (hnd : (dictKeys d).Nodup) : dictLookup (dictErase d k) k = none := by
  induction d with
  | nil => rfl
  | cons p t ih =>
    obtain ⟨k3, v3⟩ := p
    simp only [dictKeys, List.map_cons, List.nodup_cons] at hnd
    by_cases h3 : k3 = k
    · subst h3
      simp only [dictErase, dictPop, if_pos rfl]
      exact dictLookup_eq_none t k3 hnd.1
    · simp only [dictErase, dictPop, if_neg h3, dictLookup, if_neg h3]
      exact ih hnd.2

/-- Claim C2: the adapter execute operation is total by construction in this
embedding, and: an unknown tool yields a failure result; a tool with no
instance-level nor schema-bound handler yields a failure result; a raising
handler is caught into a failure result carrying the error text; a
succeeding handler yields a success result. -/
theorem claim_C2 (a : ToolAdapter) (tool_name : String) (args : Dict PyVal) :
    (dictLookup a.tools tool_name = none →
      a.execute tool_name args =
        { tool_name := tool_name, success := false,
          error := some ("Unknown tool: " ++ tool_name) })
    ∧ (∀ sch, dictLookup a.tools tool_name = some sch →
        dictLookup a.handlers tool_name = none →
        sch.handler = none →
        a.execute tool_name args =
          { tool_name := tool_name, success := false,
            error := some ("No handler for tool: " ++ tool_name) })
    ∧ (∀ sch h msg, dictLookup a.tools tool_name = some sch →
        (dictLookup a.handlers tool_name).orElse (fun _ => sch.handler) = some h →
        h args = .error msg →
        a.execute tool_name args =
          { tool_name := tool_name, success := false, error := some msg })
    ∧ (∀ sch h v, dictLookup a.tools tool_name = some sch →
        (dictLookup a.handlers tool_name).orElse (fun _ => sch.handler) = some h →
        h args = .ok v →
        a.execute tool_name args =
          { tool_name := tool_name, success := true, result := v }) := by
  refine ⟨?_, ?_, ?_, ?_⟩
  · intro h
    unfold ToolAdapter.execute
    simp [h]
  · intro sch h1 h2 h3
    unfold ToolAdapter.execute
    simp [h1, h2, h3, Option.orElse]
  · intro sch h msg h1 h2 h3
    unfold ToolAdapter.execute
    simp [h1, h2, h3]
  · intro sch h v h1 h2 h3
    unfold ToolAdapter.execute
    simp [h1, h2, h3]

/-- Claim C2 (witness): the four branches evaluated on a fresh adapter, an
unbound catalog tool, a raising handler and a succeeding handler. -/
theorem claim_C2_witness :
    (ToolAdapter.execute {} "nope" [] =
      { tool_name := "nope", success := false,
        error := some ("Unknown tool: " ++ "nope") }) ∧
    (ToolAdapter.execute {} "harness_read" [] =
      { tool_name := "harness_read", success := false,
        error := some ("No handler for tool: " ++ "harness_read") }) ∧
    (ToolAdapter.execute (ToolAdapter.register_handler {} "harness_read" crashTool)
        "harness_read" [] =
      { tool_name := "harness_read", success := false, error := some "kaput" }) ∧
    (ToolAdapter.execute (ToolAdapter.register_handler {} "harness_read" okTool)
        "harness_read" [] =
      { tool_name := "harness_read", success := true, result := .vStr "done" }) := by
  refine ⟨?_, ?_, ?_, ?_⟩
  · exact (claim_C2 {} "nope" []).1 rfl
  · exact (claim_C2 {} "harness_read" []).2.1 { name := "harness_read" } rfl rfl rfl
  · exact (claim_C2 _ "harness_read" []).2.2.1 _ crashTool "kaput" rfl rfl rfl
  · exact (claim_C2 _ "harness_read" []).2.2.2 _ okTool (.vStr "done") rfl rfl rfl

/-- Claim C10: tool_to_command removes exactly the `action` key from the
mapping it is given (modeled by returning the residual mapping), binding it
as the subcommand and leaving every other entry, and its order, unchanged;
both bus call sites hand the conversion a copy, so the caller-visible
mapping — in particular the one stored in the request log — still carries
`action`. -/
theorem claim_C10 :
    (∀ (tool_name : String) (args : Dict PyVal),
      (dictKeys args).Nodup →
      (dictLookup args "action").isSome →
      (ToolAdapter.tool_to_command tool_name args).2 = dictErase args "action" ∧
      (∀ k, k ≠ "action" →
        dictLookup (ToolAdapter.tool_to_command tool_name args).2 k
          = dictLookup args k) ∧
      dictLookup (ToolAdapter.tool_to_command tool_name args).2 "action" = none ∧
      (ToolAdapter.tool_to_command tool_name args).1.subcommand
        = actionToSub (dictLookup args "action"))
  ∧ (∀ (s : UnifiedCommandBus) (tn : String) (ta : Dict PyVal)
       (agent : String) (ctx : Dict PyVal),
      ((s.execute_tool tn ta agent ctx).2).history =
        capHistory s.max_history (s.history ++ [mkToolRequest s.clock agent tn ta]) ∧
      (mkToolRequest s.clock agent tn ta).tool_args = some ta)
  ∧ (∀ (h : CommandHandler) (kwargs : Dict PyVal),
      UnifiedCommandBus.make_tool_handler h kwargs =
        h.execute
          { (ToolAdapter.tool_to_command ("harness_" ++ h.name) (dictCopy kwargs)).1
              with command := h.name }
          [("source", .vStr "tool")]) := by
  refine ⟨?_, ?_, ?_⟩
  · intro tool_name args hnd hact
    refine ⟨rfl, ?_, ?_, ?_⟩
    · intro k hk
      exact dictLookup_dictErase_ne args "action" k hk
    · exact dictLookup_dictErase_self args "action" hnd
    · show actionToSub (dictPop args "action").1 = actionToSub (dictLookup args "action")
      rw [dictPop_fst]
  · intro s tn ta agent ctx
    exact ⟨rfl, rfl⟩
  · intro h kwargs
    rfl

/-- Claim C10 (witness): the theorem evaluated on a concrete sandbox tool
call whose mapping holds `action` and one other key. -/
theorem claim_C10_witness :
    ((ToolAdapter.tool_to_command "harness_sandbox"
        [("action", .vStr "list"), ("name", .vStr "x")]).2
      = dictErase [("action", .vStr "list"), ("name", .vStr "x")] "action") ∧
    (dictLookup (ToolAdapter.tool_to_command "harness_sandbox"
        [("action", .vStr "list"), ("name", .vStr "x")]).2 "name"
      = dictLookup [("action", .vStr "list"), ("name", .vStr "x")] "name") ∧
    (dictLookup (ToolAdapter.tool_to_command "harness_sandbox"
        [("action", .vStr "list"), ("name", .vStr "x")]).2 "action" = none) ∧
    (((UnifiedCommandBus.mkNew.execute_tool "harness_sandbox"
        [("action", .vStr "list"), ("name", .vStr "x")] "a1" []).2).history =
      capHistory UnifiedCommandBus.mkNew.max_history
        (UnifiedCommandBus.mkNew.history ++
          [mkToolRequest UnifiedCommandBus.mkNew.clock "a1" "harness_sandbox"
            [("action", .vStr "list"), ("name", .vStr "x")]])) := by
  have h1 := claim_C10.1 "harness_sandbox"
    [("action", .vStr "list"), ("name", .vStr "x")] (by decide) rfl
  have h2 := claim_C10.2.1 UnifiedCommandBus.mkNew "harness_sandbox"
    [("action", .vStr "list"), ("name", .vStr "x")] "a1" []
  exact ⟨h1.1, h1.2.1 "name" (by decide), h1.2.2.1, h2.1⟩

/-- Helper: writing the same key twice keeps only the second value. -/
theorem dictInsert_dictInsert {α : Type} (d : Dict α) (k : String) (v w : α) :
    dictInsert (dictInsert d k v) k w = dictInsert d k w := by
  induction d with
  | nil => simp [dictInsert]
  | cons p t ih =>
    obtain ⟨k2, v2⟩ := p
    by_cases h : k2 = k <;> simp [dictInsert, h, ih]

/-- Helper: binding a schema handler does not change which keys exist. -/
theorem dictHasKey_map_set (d : Dict ToolSchema) (n k : String) (f : ToolHandler) :
    dictHasKey (d.map (schemaSetHandler n f)) k = dictHasKey d k := by
  induction d with
  | nil => rfl
  | cons p t ih =>
    obtain ⟨k2, sch⟩ := p
    obtain ⟨sch2, hs⟩ : ∃ sch2, schemaSetHandler n f (k2, sch) = (k2, sch2) := by
      unfold schemaSetHandler
      by_cases hn : ((k2, sch) : String × ToolSchema).1 = n
      · exact ⟨_, by rw [if_pos hn]⟩
      · exact ⟨_, by rw [if_neg hn]⟩
    simp only [List.map_cons, hs]
    by_cases hk : k2 = k
    · simp [dictHasKey, dictLookup, hk]
    · simp only [dictHasKey, dictLookup, if_neg hk] at ih ⊢
      exact ih

/-- Helper: binding a schema handler twice keeps only the second binding. -/
theorem map_set_map_set (d : Dict ToolSchema) (n : String) (f g : ToolHandler) :
    (d.map (schemaSetHandler n f)).map (schemaSetHandler n g)
      = d.map (schemaSetHandler n g) := by
  induction d with
  | nil => rfl
  | cons p t ih =>
    obtain ⟨k, sch⟩ := p
    by_cases h : k = n <;> simp [schemaSetHandler, h, ih]

/-- Helper: rebinding one catalog entry keeps only the second binding. -/
theorem set_set_point (n : String) (f g : ToolHandler) (p : String × ToolSchema) :
    schemaSetHandler n g (schemaSetHandler n f p) = schemaSetHandler n g p := by
  obtain ⟨k, sch⟩ := p
  unfold schemaSetHandler
  by_cases h : k = n <;> simp [h]

/-- Helper: adapter-side registration under one name is overwrite-only. -/
theorem adapter_register_register (a : ToolAdapter) (n : String) (f g : ToolHandler) :
    (a.register_handler n f).register_handler n g = a.register_handler n g := by
  unfold ToolAdapter.register_handler
  by_cases h : dictHasKey a.tools n
  · simp [h, dictHasKey_map_set, dictInsert_dictInsert, map_set_map_set,
      -List.map_map]
  · simp [h, dictInsert_dictInsert]

/-- Claim C8: registering a second handler under the same command name fully
replaces the first — the two-registration bus state equals the state with
only the second registration, both in the command registry and in the
adapter bindings of the synthesized `harness_`-prefixed tool — so every
dispatch, through either entry convention, behaves as if only the second
handler had ever been registered. -/
theorem claim_C8 (s : UnifiedCommandBus) (n : String) (h1 h2 : CommandHandler) :
    ((s.register_handler n h1).register_handler n h2 = s.register_handler n h2)
    ∧ (∀ (text agent : String) (ctx : Dict PyVal),
        ((s.register_handler n h1).register_handler n h2).execute_text text agent ctx
          = (s.register_handler n h2).execute_text text agent ctx)
    ∧ (∀ (tn : String) (ta : Dict PyVal) (agent : String) (ctx : Dict PyVal),
        ((s.register_handler n h1).register_handler n h2).execute_tool tn ta agent ctx
          = (s.register_handler n h2).execute_tool tn ta agent ctx) := by
  have key : (s.register_handler n h1).register_handler n h2 = s.register_handler n h2 := by
    unfold UnifiedCommandBus.register_handler
    simp [dictInsert_dictInsert, adapter_register_register]
  exact ⟨key, fun text agent ctx => by rw [key], fun tn ta agent ctx => by rw [key]⟩

/-- Helper: core dispatch reads only the handler registry and the adapter —
not the middleware list, history log, cap or clock. -/
theorem execute_core_irrel (ta : ToolAdapter) (hs : Dict CommandHandler)
    (mw mw2 : List Middleware) (h1 h2 : List ExecutionRequest)
    (m1 m2 c1 c2 : Nat) (req : ExecutionRequest) (ctx : Dict PyVal) :
    UnifiedCommandBus.execute_core ⟨ta, hs, mw, h1, m1, c1⟩ req ctx
      = UnifiedCommandBus.execute_core ⟨ta, hs, mw2, h2, m2, c2⟩ req ctx := rfl

/-- Helper: with no middleware installed, `_execute` returns the core
response (or the caught-error failure response) with its timing set. -/
theorem execRequest_no_mw (ta : ToolAdapter) (hs : Dict CommandHandler)
    (hist : List ExecutionRequest) (mh ck : Nat)
    (req : ExecutionRequest) (ctx : Dict PyVal) :
    ((⟨ta, hs, [], hist, mh, ck⟩ : UnifiedCommandBus).execRequest req ctx).1 =
      (match (⟨ta, hs, [], hist, mh, ck⟩ : UnifiedCommandBus).execute_core req ctx with
       | .ok r => { r with execution_time_ms := 0 }
       | .error e =>
         { request_id := req.request_id, success := false, error := some e,
           execution_time_ms := 0 }) := by
  unfold UnifiedCommandBus.execRequest UnifiedCommandBus.runChain
  dsimp only [List.foldr]
  rw [execute_core_irrel ta hs [] [] (capHistory mh (hist ++ [req])) hist mh mh ck ck]
  cases hc : UnifiedCommandBus.execute_core ⟨ta, hs, [], hist, mh, ck⟩ req ctx with
  | ok r => simp [hc]
  | error e => simp [hc]

/-- Claim C1: with the bus in its default (middleware-free) configuration, a
registered handler whose execution raises never lets the exception cross the
bus boundary: both `execute_text` and `execute_tool` return a failure
response whose error text is exactly the raised message (`execute_text` and
`execute_tool` are total functions in this embedding, so no exception can
propagate out of them). -/
theorem claim_C1 :
    (∀ (s : UnifiedCommandBus) (text agent : String) (ctx : Dict PyVal)
       (h : CommandHandler) (msg : String) (p : ParsedCommand),
       s.middlewares = [] →
       CommandParser.parse_all text = [p] →
       p.valid = true →
       dictLookup s.handlers p.command = some h →
       h.execute p (dictInsert (dictInsert ctx "agent_id" (.vStr agent))
           "source" (.vStr "text")) = .error msg →
       ∃ r, (s.execute_text text agent ctx).1 = [r] ∧
            r.success = false ∧ r.error = some msg)
  ∧ (∀ (s : UnifiedCommandBus) (tn agent : String) (args ctx : Dict PyVal)
       (h : CommandHandler) (msg : String),
       s.middlewares = [] →
       dictLookup s.handlers (pyReplace tn "harness_" "") = some h →
       h.execute
           { (ToolAdapter.tool_to_command tn (dictCopy args)).1
               with command := pyReplace tn "harness_" "" }
           (dictInsert (dictInsert ctx "agent_id" (.vStr agent))
             "source" (.vStr "tool")) = .error msg →
       (s.execute_tool tn args agent ctx).1.success = false ∧
       (s.execute_tool tn args agent ctx).1.error = some msg) := by
  constructor
  · intro s text agent ctx h msg p hmw hpa hv hlook hexec
    unfold UnifiedCommandBus.execute_text
    rw [hpa]
    simp only [UnifiedCommandBus.executeTextGo]
    rw [hmw, execRequest_no_mw]
    unfold UnifiedCommandBus.execute_core UnifiedCommandBus.execute_text_command
    dsimp only [mkTextRequest]
    simp only [hv, hlook, hexec]
    exact ⟨_, rfl, by simp, by simp⟩
  · intro s tn agent args ctx h msg hmw hlook hexec
    unfold UnifiedCommandBus.execute_tool
    rw [hmw, execRequest_no_mw]
    unfold UnifiedCommandBus.execute_core UnifiedCommandBus.execute_tool_call
    dsimp only [mkToolRequest, Option.getD]
    rw [hlook]
    dsimp only
    rw [hexec]
    exact ⟨rfl, rfl⟩

/-- Claim C1 (witness): a handler raising `boom` registered under `read`,
exercised through both entry conventions on a fresh bus. -/
theorem claim_C1_witness :
    (∃ r, ((UnifiedCommandBus.mkNew.register_handler "read" crashHandler).execute_text
            "/read x" "a1" []).1 = [r] ∧ r.success = false ∧ r.error = some "boom")
  ∧ (((UnifiedCommandBus.mkNew.register_handler "read" crashHandler).execute_tool
        "harness_read" [("path", .vStr "x")] "a1" []).1.success = false ∧
     ((UnifiedCommandBus.mkNew.register_handler "read" crashHandler).execute_tool
        "harness_read" [("path", .vStr "x")] "a1" []).1.error = some "boom") := by
  constructor
  · exact claim_C1.1 _ "/read x" "a1" [] crashHandler "boom"
      (CommandParser.parse "/read x") rfl rfl rfl rfl rfl
  · exact claim_C1.2 _ "harness_read" "a1" [("path", .vStr "x")] [] crashHandler "boom"
      rfl rfl rfl

/-- Helper: the parser communicates every failure through a message — an
invalid ParsedCommand always carries an error. -/
theorem parse_error_of_invalid (t : String) :
    (CommandParser.parse t).valid = false → ((CommandParser.parse t).error).isSome := by
  unfold CommandParser.parse
  dsimp only
  repeat' split <;> intros <;> simp_all

/-- Helper: adapter results pair `success = false` exactly with a present
error. -/
theorem adapter_result_invariant (a : ToolAdapter) (n : String) (args : Dict PyVal) :
    ((a.execute n args).success = false ↔ (a.execute n args).error ≠ none) := by
  unfold ToolAdapter.execute
  split
  · simp
  · split
    · simp
    · split <;> simp

/-- Helper: the text-command core keeps the success/error pairing on any
request whose parsed command reports its failures. -/
theorem text_core_invariant (s : UnifiedCommandBus) (req : ExecutionRequest)
    (ctx : Dict PyVal)
    (hwf : ∀ p, req.parsed_command = some p → p.valid = false → (p.error).isSome) :
    ((s.execute_text_command req ctx).success = false ↔
     (s.execute_text_command req ctx).error ≠ none) := by
  unfold UnifiedCommandBus.execute_text_command
  cases hpc : req.parsed_command with
  | none => simp
  | some p =>
    have he := fun hvf => hwf p hpc hvf
    rw [Option.isSome_iff_ne_none] at he
    by_cases hv : p.valid
    · rcases hlk : dictLookup s.handlers p.command with _ | handler
      · by_cases hh : p.command = "help"
        · rw [hh] at hlk
          simp [hv, hlk, hh]
        · simp [hv, hlk, hh]
      · rcases hex : handler.execute p ctx with v | e <;> simp [hv, hlk, hex]
    · simp only [Bool.not_eq_true] at hv
      simp [hv, he hv]

/-- Helper: every response the tool-call core returns keeps the pairing. -/
theorem tool_core_invariant (s : UnifiedCommandBus) (req : ExecutionRequest)
    (ctx : Dict PyVal) (r : ExecutionResponse)
    (hr : s.execute_tool_call req ctx = .ok r) :
    (r.success = false ↔ r.error ≠ none) := by
  unfold UnifiedCommandBus.execute_tool_call at hr
  cases htn : req.tool_name with
  | none => rw [htn] at hr; exact absurd hr (by simp)
  | some tn =>
    rw [htn] at hr
    dsimp only at hr
    rcases hlk : dictLookup s.handlers (pyReplace tn "harness_" "") with _ | handler <;>
      rw [hlk] at hr <;> dsimp only at hr
    · simp only [Except.ok.injEq] at hr
      subst hr
      have := adapter_result_invariant s.tool_adapter tn (req.tool_args.getD [])
      simpa using this
    · split at hr <;> simp only [Except.ok.injEq] at hr <;> subst hr <;> simp

/-- Helper: with no middleware, `_execute` keeps the pairing on any request
whose parsed command reports its failures. -/
theorem execRequest_invariant (ta : ToolAdapter) (hs : Dict CommandHandler)
    (hist : List ExecutionRequest) (mh ck : Nat) (req : ExecutionRequest)
    (ctx : Dict PyVal)
    (hwf : ∀ p, req.parsed_command = some p → p.valid = false → (p.error).isSome) :
    ((((⟨ta, hs, [], hist, mh, ck⟩ : UnifiedCommandBus).execRequest req ctx).1.success
        = false) ↔
     (((⟨ta, hs, [], hist, mh, ck⟩ : UnifiedCommandBus).execRequest req ctx).1.error
        ≠ none)) := by
  rw [execRequest_no_mw]
  unfold UnifiedCommandBus.execute_core
  cases hrt : req.request_type with
  | TEXT_COMMAND =>
    have := text_core_invariant ⟨ta, hs, [], hist, mh, ck⟩ req ctx hwf
    simpa using this
  | TOOL_CALL =>
    cases hr : UnifiedCommandBus.execute_tool_call ⟨ta, hs, [], hist, mh, ck⟩ req ctx with
    | ok r =>
      have := tool_core_invariant ⟨ta, hs, [], hist, mh, ck⟩ req ctx r hr
      simpa using this
    | error e => simp

/-- Helper: the state after one `_execute` only gains the logged request. -/
theorem execRequest_state (s : UnifiedCommandBus) (req : ExecutionRequest)
    (ctx : Dict PyVal) :
    (s.execRequest req ctx).2 =
      { s with history := capHistory s.max_history (s.history ++ [req]) } := rfl

/-- Helper: every response of the sequential text-dispatch loop keeps the
pairing, provided every queued parsed command reports its failures. -/
theorem executeTextGo_invariant (agent : String) (ctx : Dict PyVal)
    (ps : List ParsedCommand) :
    ∀ (ta : ToolAdapter) (hs : Dict CommandHandler) (hist : List ExecutionRequest)
      (mh ck : Nat),
      (∀ p ∈ ps, p.valid = false → (p.error).isSome) →
      ∀ r ∈ (UnifiedCommandBus.executeTextGo agent ctx ⟨ta, hs, [], hist, mh, ck⟩ ps).1,
        (r.success = false ↔ r.error ≠ none) := by
  induction ps with
  | nil =>
    intro ta hs hist mh ck hps r hr
    simp [UnifiedCommandBus.executeTextGo] at hr
  | cons p ps ih =>
    intro ta hs hist mh ck hps r hr
    simp only [UnifiedCommandBus.executeTextGo] at hr
    try dsimp only at hr
    rcases List.mem_cons.mp hr with hr1 | hr2
    · subst hr1
      refine execRequest_invariant ta hs hist mh (ck + 1)
        (mkTextRequest ck agent p) ctx (fun q hq hqv => ?_)
      have hpq : p = q := by simpa [mkTextRequest] using hq
      exact hpq ▸ hps p (List.mem_cons.mpr (Or.inl rfl)) (hpq ▸ hqv)
    · rw [execRequest_state] at hr2
      dsimp only at hr2
      exact ih ta hs _ mh (ck + 1)
        (fun q hq => hps q (List.mem_cons.mpr (Or.inr hq))) r hr2

/-- Claim C3: every ExecutionResponse the bus's core dispatch produces —
parse-failure, built-in help, unknown command, handler success, handler
failure, tool-call routing or direct adapter execution (with no middleware
installed to rewrite responses), and the top-level error recovery for a
raising middleware chain — satisfies `success = false` iff the error field
is non-null. -/
theorem claim_C3 :
    (∀ (s : UnifiedCommandBus) (text agent : String) (ctx : Dict PyVal),
       s.middlewares = [] →
       ∀ r ∈ (s.execute_text text agent ctx).1,
         (r.success = false ↔ r.error ≠ none))
  ∧ (∀ (s : UnifiedCommandBus) (tn : String) (ta2 : Dict PyVal)
       (agent : String) (ctx : Dict PyVal),
       s.middlewares = [] →
       ((s.execute_tool tn ta2 agent ctx).1.success = false ↔
        (s.execute_tool tn ta2 agent ctx).1.error ≠ none))
  ∧ (∀ (s : UnifiedCommandBus) (req : ExecutionRequest) (ctx : Dict PyVal)
       (e : String),
       s.runChain req ctx = .error e →
       (s.execRequest req ctx).1.success = false ∧
       (s.execRequest req ctx).1.error = some e) := by
  refine ⟨?_, ?_, ?_⟩
  · intro s text agent ctx hmw r hr
    obtain ⟨ta, hs, mws, hist, mh, ck⟩ := s
    simp only at hmw
    subst hmw
    unfold UnifiedCommandBus.execute_text at hr
    refine executeTextGo_invariant agent _ (CommandParser.parse_all text)
      ta hs hist mh ck ?_ r hr
    intro p hp hpv
    unfold CommandParser.parse_all at hp
    rcases List.mem_map.mp hp with ⟨tup, _, htup⟩
    exact htup ▸ parse_error_of_invalid _ (htup ▸ hpv)
  · intro s tn ta2 agent ctx hmw
    obtain ⟨ta, hs, mws, hist, mh, ck⟩ := s
    simp only at hmw
    subst hmw
    unfold UnifiedCommandBus.execute_tool
    exact execRequest_invariant ta hs hist mh (ck + 1)
      (mkToolRequest ck agent tn ta2) _
      (fun p hp => by simp [mkToolRequest] at hp)
  · intro s req ctx e hre
    obtain ⟨ta, hs, mws, hist, mh, ck⟩ := s
    unfold UnifiedCommandBus.execRequest
    dsimp only
    rw [show UnifiedCommandBus.runChain
          ⟨ta, hs, mws, capHistory mh (hist ++ [req]), mh, ck⟩ req ctx
        = UnifiedCommandBus.runChain ⟨ta, hs, mws, hist, mh, ck⟩ req ctx from rfl]
    rw [hre]
    exact ⟨rfl, rfl⟩

/-- Claim C3 (witness): the pairing checked on a built-in help response, a
direct adapter failure response, and the recovery response of a bus whose
middleware chain raises. -/
theorem claim_C3_witness :
    (helpResp.success = false ↔ helpResp.error ≠ none)
  ∧ ((UnifiedCommandBus.mkNew.execute_tool "nope" [] "a1" []).1.success = false ↔
     (UnifiedCommandBus.mkNew.execute_tool "nope" [] "a1" []).1.error ≠ none)
  ∧ (((UnifiedCommandBus.mkNew.add_middleware crashMw).execRequest
        (mkToolRequest 0 "a1" "nope" []) []).1.success = false ∧
     ((UnifiedCommandBus.mkNew.add_middleware crashMw).execRequest
        (mkToolRequest 0 "a1" "nope" []) []).1.error = some "mw-crash") := by
  refine ⟨?_, ?_, ?_⟩
  · refine claim_C3.1 UnifiedCommandBus.mkNew "/help" "a1" [] rfl helpResp ?_
    rw [show (UnifiedCommandBus.mkNew.execute_text "/help" "a1" []).1 = [helpResp]
          from rfl]
    exact List.mem_singleton.mpr rfl
  · exact claim_C3.2.1 UnifiedCommandBus.mkNew "nope" [] "a1" [] rfl
  · exact claim_C3.2.2 (UnifiedCommandBus.mkNew.add_middleware crashMw)
      (mkToolRequest 0 "a1" "nope" []) [] "mw-crash" rfl

/-- Helper: a line matched by the single-command pattern starts with `/`. -/
theorem matchSingle_startsWith (s : String)
    (hm : (matchSingleCommand s).isSome) : strStartsWith s "/" = true := by
  unfold matchSingleCommand at hm
  cases hcs : s.toList with
  | nil => rw [hcs] at hm; simp at hm
  | cons c cs =>
    rw [hcs] at hm
    by_cases hc : c = '/'
    · subst hc
      unfold strStartsWith
      rw [hcs]
      rfl
    · simp [hc] at hm

/-- Helper: on lines that all match the single-command pattern, the
extraction loop flushes its carried command and then emits exactly one tuple
per line, in line order. -/
theorem extractGo_all_match (lines : List String) :
    ∀ cur, (∀ l ∈ lines, (matchSingleCommand (pyStrip l)).isSome) →
      extractGo cur lines = flushCur cur ++ lines.map extractTupleOf := by
  induction lines with
  | nil => intro cur _; simp [extractGo]
  | cons l ls ih =>
    intro cur h
    have hm := h l (List.mem_cons_self l ls)
    obtain ⟨m, hm2⟩ := Option.isSome_iff_exists.mp hm
    unfold extractGo
    dsimp only
    rw [matchSingle_startsWith _ hm]
    rw [hm2]
    dsimp only
    rw [ih _ (fun l2 hl2 => h l2 (List.mem_cons.mpr (Or.inr hl2)))]
    simp [flushCur, extractTupleOf, hm2]

/-- Claim C7 (counterexample): the text `/1` is a single `/`-prefixed line,
yet parseAll returns no result at all — the extractor's command-name pattern
`[a-z_]+` rejects the line, so it produces no tuple. -/
theorem claim_C7_counterexample :
    pyLines "/1" = ["/1"] ∧
    strStartsWith (pyStrip "/1") "/" = true ∧
    CommandParser.parse_all "/1" = [] ∧
    ([] : List ParsedCommand).length ≠ 1 := by
  exact ⟨rfl, rfl, rfl, by decide⟩

/-- Claim C7 (amended): for every text each of whose lines matches the
extractor's single-command pattern `/[a-z_]+ ...` after stripping, parseAll
returns exactly one ParsedCommand per line, in the order the lines appear —
the i-th result being the parse of the i-th line's reassembled command. -/
theorem claim_C7_amended (text : String)
    (hall : ∀ l ∈ pyLines text, (matchSingleCommand (pyStrip l)).isSome) :
    CommandParser.parse_all text
      = (pyLines text).map (fun l => CommandParser.parse (reassembleLine l)) ∧
    (CommandParser.parse_all text).length = (pyLines text).length := by
  have hext : CommandParser.extract_commands text
      = (pyLines text).map extractTupleOf := by
    unfold CommandParser.extract_commands
    simpa [flushCur] using extractGo_all_match (pyLines text) none hall
  have h1 : CommandParser.parse_all text
      = (pyLines text).map (fun l => CommandParser.parse (reassembleLine l)) := by
    unfold CommandParser.parse_all
    rw [hext, List.map_map]
    rfl
  exact ⟨h1, by rw [h1, List.length_map]⟩

/-- Claim C7 (witness): the amended theorem on a two-line text. -/
theorem claim_C7_witness :
    CommandParser.parse_all "/read a\n/help"
      = (pyLines "/read a\n/help").map
          (fun l => CommandParser.parse (reassembleLine l)) ∧
    (CommandParser.parse_all "/read a\n/help").length
      = (pyLines "/read a\n/help").length := by
  exact claim_C7_amended "/read a\n/help" (by decide)

/-- Helper: one counted dispatch advances the clock and appends exactly one
request to the bounded history, before anything else happens. -/
theorem dispatchStep_eq (s : UnifiedCommandBus) :
    dispatchStep s =
      { s with clock := s.clock + 1,
               history := capHistory s.max_history
                 (s.history ++ [mkToolRequest s.clock "agent-1" "harness_status" []]) } := rfl

/-- Helper: dropping from the front of an arithmetic range. -/
theorem drop_range'_1 (i : Nat) :
    ∀ s n : Nat, i ≤ n → (List.range' s n).drop i = List.range' (s + i) (n - i) := by
  induction i with
  | zero => intro s n _; simp
  | succ i ih =>
    intro s n h
    cases n with
    | zero => omega
    | succ n =>
      rw [List.range'_succ, List.drop_succ_cons, ih (s + 1) n (by omega)]
      have e1 : s + 1 + i = s + (i + 1) := by omega
      have e2 : n - i = n + 1 - (i + 1) := by omega
      rw [e1, e2]

/-- Helper: after `n` counted dispatches the clock equals `n`, the cap is at
its default 1000, and the history holds exactly the `min n 1000` most recent
request timestamps in arrival order. -/
theorem dispatchN_spec (n : Nat) :
    (dispatchN n).clock = n ∧ (dispatchN n).max_history = 1000 ∧
    (dispatchN n).history.map (fun r => r.timestamp)
      = List.range' (n - 1000) (min n 1000) := by
  induction n with
  | zero => exact ⟨rfl, rfl, rfl⟩
  | succ n ih =>
    obtain ⟨hc, hm, hh⟩ := ih
    have hlen : (dispatchN n).history.length = min n 1000 := by
      have h2 := congrArg List.length hh
      simpa using h2
    refine ⟨?_, ?_, ?_⟩
    · show (dispatchStep (dispatchN n)).clock = n + 1
      rw [dispatchStep_eq]
      dsimp only
      rw [hc]
    · show (dispatchStep (dispatchN n)).max_history = 1000
      rw [dispatchStep_eq]
      dsimp only
      exact hm
    · show (dispatchStep (dispatchN n)).history.map (fun r => r.timestamp) = _
      rw [dispatchStep_eq]
      dsimp only
      rw [hm, hc]
      unfold capHistory
      rw [List.length_append, hlen]
      by_cases hcase : n < 1000
      · rw [if_neg (by simp; omega)]
        rw [List.map_append, hh]
        have e1 : n - 1000 = 0 := by omega
        have e2 : min n 1000 = n := by omega
        have e3 : n + 1 - 1000 = 0 := by omega
        have e4 : min (n + 1) 1000 = n + 1 := by omega
        rw [e1, e2, e3, e4, List.range'_1_concat]
        simp [mkToolRequest]
      · rw [if_pos (by simp; omega)]
        unfold pyLastN
        rw [if_neg (by omega), List.length_append, hlen]
        simp only [List.length_singleton]
        have e2 : min n 1000 = 1000 := by omega
        rw [e2, show (1000 : Nat) + 1 - 1000 = 1 from rfl]
        rw [List.map_drop, List.map_append, hh, e2]
        have hsplit : (List.range' (n - 1000) 1000 : List Nat)
            = (n - 1000) :: List.range' (n - 1000 + 1) 999 := by
          rw [show (1000 : Nat) = 999 + 1 from rfl, List.range'_succ]
        rw [hsplit, List.cons_append, List.drop_succ_cons, List.drop_zero]
        have e5 : n - 1000 + 1 = n - 999 := by omega
        have e6 : n + 1 - 1000 = n - 999 := by omega
        have e7 : min (n + 1) 1000 = 1000 := by omega
        rw [e5, e6, e7]
        have hconc : (List.range' (n - 999) 1000 : List Nat)
            = List.range' (n - 999) 999 ++ [n - 999 + 999] := by
          rw [show (1000 : Nat) = 999 + 1 from rfl]
          exact List.range'_1_concat (n - 999) 999
        rw [hconc, show n - 999 + 999 = n from by omega]
        simp [mkToolRequest]

/-- Helper: after `1000 + K` dispatches, the default get_history call
returns exactly the 50 most recent requests in arrival order, out of a
history holding the 1000 most recent. -/
theorem getHistoryDefault_spec (K : Nat) (hK : 1 ≤ K) :
    ((dispatchN (1000 + K)).get_history_default).map (fun r => r.timestamp)
        = List.range' (K + 950) 50 ∧
    ((dispatchN (1000 + K)).get_history_default).length = 50 ∧
    (dispatchN (1000 + K)).history.map (fun r => r.timestamp)
        = List.range' K 1000 := by
  obtain ⟨hc, hm, hh⟩ := dispatchN_spec (1000 + K)
  rw [show 1000 + K - 1000 = K from by omega,
      show min (1000 + K) 1000 = 1000 from by omega] at hh
  have hlen : (dispatchN (1000 + K)).history.length = 1000 := by
    have h2 := congrArg List.length hh
    simpa using h2
  have hmain : ((dispatchN (1000 + K)).get_history_default).map (fun r => r.timestamp)
      = List.range' (K + 950) 50 := by
    unfold UnifiedCommandBus.get_history_default UnifiedCommandBus.get_history
    dsimp only
    unfold pyLastN
    rw [if_neg (by omega), hlen]
    rw [List.map_drop, hh]
    rw [show (1000 : Nat) - 50 = 950 from rfl]
    rw [drop_range'_1 950 K 1000 (by omega)]
  refine ⟨hmain, ?_, hh⟩
  have h3 := congrArg List.length hmain
  simpa using h3

/-- Claim C5 (counterexample): take K = 1.  After max_history + 1 = 1001
dispatches, `get_history` with no limit argument returns 50 entries (its
default limit), not the K = 1 most recent request. -/
theorem claim_C5_counterexample :
    ((dispatchN (1000 + 1)).get_history_default).length = 50 ∧ (50 : Nat) ≠ 1 :=
  ⟨(getHistoryDefault_spec 1 (by decide)).2.1, by decide⟩

/-- Claim C5 (amended): after max_history + K dispatches the internal log
holds exactly the 1000 most recent requests in arrival order, and
`get_history` with no limit argument returns at most max_history entries —
namely the 50 most recent, its default limit being 50, in arrival order;
every constructed ExecutionRequest, including one whose parse failed, is
appended to the bounded history by its dispatch. -/
theorem claim_C5_amended :
    (∀ K, 1 ≤ K →
      ((dispatchN (1000 + K)).get_history_default).map (fun r => r.timestamp)
          = List.range' (K + 950) 50 ∧
      ((dispatchN (1000 + K)).get_history_default).length = 50 ∧
      ((dispatchN (1000 + K)).get_history_default).length ≤ 1000 ∧
      (dispatchN (1000 + K)).history.map (fun r => r.timestamp)
          = List.range' K 1000)
  ∧ (∀ (s : UnifiedCommandBus) (tn : String) (ta2 : Dict PyVal)
       (agent : String) (ctx : Dict PyVal),
      ((s.execute_tool tn ta2 agent ctx).2).history
        = capHistory s.max_history (s.history ++ [mkToolRequest s.clock agent tn ta2]))
  ∧ (∀ (s : UnifiedCommandBus) (text agent : String) (ctx : Dict PyVal)
       (p : ParsedCommand),
      CommandParser.parse_all text = [p] →
      ((s.execute_text text agent ctx).2).history
        = capHistory s.max_history (s.history ++ [mkTextRequest s.clock agent p])) := by
  refine ⟨?_, ?_, ?_⟩
  · intro K hK
    obtain ⟨h1, h2, h3⟩ := getHistoryDefault_spec K hK
    exact ⟨h1, h2, by omega, h3⟩
  · intro s tn ta2 agent ctx
    rfl
  · intro s text agent ctx p hpa
    unfold UnifiedCommandBus.execute_text
    rw [hpa]
    rfl

/-- Claim C5 (witness): the amended theorem at K = 1, at a concrete tool
dispatch, and at a text dispatch whose single command fails to parse. -/
theorem claim_C5_amended_witness :
    (((dispatchN (1000 + 1)).get_history_default).map (fun r => r.timestamp)
        = List.range' (1 + 950) 50 ∧
     ((dispatchN (1000 + 1)).get_history_default).length = 50 ∧
     ((dispatchN (1000 + 1)).get_history_default).length ≤ 1000 ∧
     (dispatchN (1000 + 1)).history.map (fun r => r.timestamp)
        = List.range' 1 1000)
  ∧ ((UnifiedCommandBus.mkNew.execute_tool "harness_status" [] "a1" []).2.history
      = capHistory UnifiedCommandBus.mkNew.max_history
          (UnifiedCommandBus.mkNew.history ++
            [mkToolRequest UnifiedCommandBus.mkNew.clock "a1" "harness_status" []]))
  ∧ ((UnifiedCommandBus.mkNew.execute_text "/frobnicate" "a1" []).2.history
      = capHistory UnifiedCommandBus.mkNew.max_history
          (UnifiedCommandBus.mkNew.history ++
            [mkTextRequest UnifiedCommandBus.mkNew.clock "a1"
              (CommandParser.parse "/frobnicate")])) := by
  refine ⟨claim_C5_amended.1 1 (by decide),
          claim_C5_amended.2.1 UnifiedCommandBus.mkNew "harness_status" [] "a1" [],
          claim_C5_amended.2.2 UnifiedCommandBus.mkNew "/frobnicate" "a1" []
            (CommandParser.parse "/frobnicate") rfl⟩
